import Mathlib

/-!
Verification of the record-reconstruction engine of `src/pipeline/0a-preprocess.js`.

The engine repairs a tab-separated file whose logical records were split across
physical lines by literal newlines inside fields.  We embed the two phases
(anchor discovery and streaming reconstruction) as pure Lean functions over
`List Char`, mirroring the JavaScript source line by line, and prove the
specified properties about them.
-/

namespace Preprocess

/-- The delimiter character (tab, char code 9). -/
def TAB : Char := '\t'

/-- Carriage return, removed by the line normalisation `raw.replace(/\r/g, "")`. -/
def CR : Char := '\r'

/-- Newline appended to every emitted record. -/
def NL : Char := '\n'

/-- `countTabs` from the source: number of tab characters in a string. -/
def countTabs (s : List Char) : Nat := s.countP (fun c => c == TAB)

/-- `DEFAULT_CONFIG.newlineReplacement = "\\n"`: the two-character placeholder
token spliced where a physical line break interrupted a logical record. -/
def defaultReplacement : List Char := ['\\', 'n']

/-- Reconstruction configuration: `canonicalTabs` (T), the placeholder token,
and `paddingTolerance` (default 3). -/
structure Config where
  canonicalTabs : Nat
  newlineReplacement : List Char
  paddingTolerance : Nat
deriving DecidableEq, Repr

/-- The mutable state of `reconstruct`: the accumulator `cur` with its running
tab count, the pending-join marker `pendingNL`, the three counters, and the
two ordered output streams (each element is one written chunk, newline
included). -/
structure RState where
  cur : List Char
  curTabs : Nat
  pendingNL : Bool
  records : Nat
  ok : Nat
  bad : Nat
  out : List (List Char)
  rej : List (List Char)
deriving DecidableEq, Repr

/-- Initial state of a reconstruction pass. -/
def initState : RState := ⟨[], 0, false, 0, 0, 0, [], []⟩

/-- `MAX_CUR_LEN = 64 * 1024 * 1024`: hard ceiling on the accumulator length. -/
def MAX_CUR_LEN : Nat := 64 * 1024 * 1024

/-- `MAX_TAB_MULTIPLIER = 8`: reject when `curTabs` exceeds 8 times T. -/
def MAX_TAB_MULTIPLIER : Nat := 8

/-- `appendToCur(str, consumePending)` from the source: splice the placeholder
if a join is pending, append `str`, update the tab count, and force-flush the
accumulator to the reject stream when a guardrail is exceeded. -/
def appendToCur (cfg : Config) (st : RState) (str : List Char)
    (consumePending : Bool) : RState :=
  if str = [] then st
  else
    let st1 :=
      if consumePending && st.pendingNL then
        { st with cur := st.cur ++ cfg.newlineReplacement, pendingNL := false }
      else st
    let st2 := { st1 with cur := st1.cur ++ str,
                          curTabs := st1.curTabs + countTabs str }
    if MAX_CUR_LEN < st2.cur.length ∨
        cfg.canonicalTabs * MAX_TAB_MULTIPLIER < st2.curTabs then
      { st2 with rej := st2.rej ++ [st2.cur ++ [NL]], bad := st2.bad + 1,
                 cur := [], curTabs := 0, pendingNL := false }
    else st2

/-- `looksLikeFragment(tabsInRow)`: absolute floor of 10 tabs, fractional
floor of 60% of T (`Math.floor(canonicalTabs * 0.6)`, which agrees with
`canonicalTabs * 6 / 10` on natural numbers in the realistic range). -/
def looksLikeFragment (cfg : Config) (tabsInRow : Nat) : Bool :=
  if tabsInRow < 10 then true
  else if tabsInRow < cfg.canonicalTabs * 6 / 10 then true
  else false

/-- `cur.split("\t")` from the source: split on every tab, keeping empty
pieces, as JavaScript `String.split` does. -/
def splitTabs : List Char → List (List Char)
  | [] => [[]]
  | c :: rest =>
    if c = TAB then [] :: splitTabs rest
    else
      match splitTabs rest with
      | [] => [[c]]
      | h :: t => (c :: h) :: t

/-- `parts.join("\t")` from the source. -/
def joinTabs : List (List Char) → List Char
  | [] => []
  | [x] => x
  | x :: y :: t => x ++ TAB :: joinTabs (y :: t)

/-- `finalizeCur()` from the source: close the accumulator as one logical
record, emitting to the accepted stream (exact width, slight padding, or
slight truncation) or to the reject stream, then reset the accumulator. -/
def finalizeCur (cfg : Config) (st : RState) : RState :=
  if st.cur = [] then st
  else
    let st1 := { st with records := st.records + 1 }
    let cols := st1.curTabs + 1
    let targetCols := cfg.canonicalTabs + 1
    let st2 :=
      if st1.curTabs = cfg.canonicalTabs then
        { st1 with out := st1.out ++ [st1.cur ++ [NL]], ok := st1.ok + 1 }
      else if cols < targetCols ∧ targetCols - cols ≤ cfg.paddingTolerance then
        { st1 with
          out := st1.out ++ [st1.cur ++ List.replicate (targetCols - cols) TAB ++ [NL]],
          ok := st1.ok + 1 }
      else if targetCols < cols ∧ cols - targetCols ≤ cfg.paddingTolerance then
        { st1 with
          out := st1.out ++ [joinTabs ((splitTabs st1.cur).take targetCols) ++ [NL]],
          ok := st1.ok + 1 }
      else if looksLikeFragment cfg st1.curTabs then
        { st1 with rej := st1.rej ++ [st1.cur ++ [NL]], bad := st1.bad + 1 }
      else
        { st1 with rej := st1.rej ++ [st1.cur ++ [NL]], bad := st1.bad + 1 }
    { st2 with cur := [], curTabs := 0 }

/-- Body of the `for await (const rawLine of rl)` loop in `reconstruct`:
normalise CRs away, set the pending-join marker when a record is in progress,
append the line, and finalize once the canonical tab count is reached. -/
def processLine (cfg : Config) (st : RState) (rawLine : List Char) : RState :=
  let line := rawLine.filter (fun c => c != CR)
  let stM := { st with pendingNL := !st.cur.isEmpty }
  let st1 := appendToCur cfg stM line true
  if cfg.canonicalTabs ≤ st1.curTabs then
    { finalizeCur cfg st1 with pendingNL := false }
  else st1

/-- `reconstruct` from the source, as a function from the ordered list of
physical lines to the final state (counters plus both output streams);
the trailing `if (cur) finalizeCur()` flushes the last record at EOF. -/
def reconstruct (cfg : Config) (lines : List (List Char)) : RState :=
  let st := lines.foldl (processLine cfg) initState
  if st.cur = [] then st else finalizeCur cfg st

/-!
Anchor discovery (`discoverCanonicalTabs`).  The triple-anchor regular
expression is `(?:^|\t)([0-9]{10})\t([0-9]{10,20})\t([0-9]{10,20})(?=\t|$)`;
we embed its backtracking semantics directly: a `{10,20}` greedy digit group
followed by a tab succeeds exactly when the maximal digit run has length
between 10 and 20 and the character right after the run is a tab.
-/

/-- Length of the maximal digit run at the head of `s` (the `[0-9]+` scan). -/
def digitRun (s : List Char) : Nat := (s.takeWhile Char.isDigit).length

/-- Match `[0-9]{10}\t[0-9]{10,20}\t[0-9]{10,20}(?=\t|$)` at the head of `t`,
returning the number of characters consumed (the lookahead consumes none). -/
def matchCore (t : List Char) : Option Nat :=
  if digitRun t = 10 ∧ (t.drop 10).head? = some TAB then
    let t2 := t.drop 11
    let r2 := digitRun t2
    if 10 ≤ r2 ∧ r2 ≤ 20 ∧ (t2.drop r2).head? = some TAB then
      let t3 := t2.drop (r2 + 1)
      let r3 := digitRun t3
      if 10 ≤ r3 ∧ r3 ≤ 20 ∧ ((t3.drop r3).head? = some TAB ∨ t3.drop r3 = []) then
        some (12 + r2 + r3)
      else none
    else none
  else none

/-- Attempt the full anchor pattern with the match starting at index `i` of
line `s`: the `(?:^|\t)` alternative matches the empty string at index 0 or a
consumed tab.  Returns `(index, lastIndex)` on success. -/
def attemptAt (s : List Char) (i : Nat) : Option (Nat × Nat) :=
  let t := s.drop i
  if i = 0 then
    match matchCore t with
    | some len => some (0, len)
    | none =>
      if t.head? = some TAB then
        match matchCore (t.drop 1) with
        | some len => some (0, 1 + len)
        | none => none
      else none
  else
    if t.head? = some TAB then
      match matchCore (t.drop 1) with
      | some len => some (i, i + 1 + len)
      | none => none
    else none

/-- Scan start indices `pos, pos+1, ...` for the first successful attempt,
as `RegExp.exec` does from `lastIndex`; `fuel` bounds the scan. -/
def findFromGo (s : List Char) (pos : Nat) : Nat → Option (Nat × Nat)
  | 0 => none
  | fuel + 1 =>
    match attemptAt s pos with
    | some m => some m
    | none => findFromGo s (pos + 1) fuel

/-- First anchor match of `s` whose start index is at least `pos`. -/
def findFrom (s : List Char) (pos : Nat) : Option (Nat × Nat) :=
  findFromGo s pos (s.length + 1 - pos)

/-- All anchor matches of one line, in order, as `(index, lastIndex)` pairs;
each search resumes at the previous match end, as the global-flag `exec`
loop does. -/
def scanGo (s : List Char) (pos : Nat) : Nat → List (Nat × Nat)
  | 0 => []
  | fuel + 1 =>
    match findFrom s pos with
    | none => []
    | some (i, e) => (i, e) :: scanGo s e fuel

/-- All anchor matches of one physical line. -/
def scanLine (s : List Char) : List (Nat × Nat) := scanGo s 0 (s.length + 1)

/-- The inner match loop of `discoverCanonicalTabs`: for each match, ingest
the tabs of `line.slice(pos, m.index)`, record the running count, and resume
at `lastIndex` (so tabs inside the match region are skipped).  Returns the
final `pos`, the updated running count, and the extended index list. -/
def discoverMatchesGo (line : List Char) :
    List (Nat × Nat) → Nat → Nat → List Nat → Nat × Nat × List Nat
  | [], pos, absTabs, idx => (pos, absTabs, idx)
  | (i, e) :: rest, pos, absTabs, idx =>
    let a := absTabs + countTabs ((line.take i).drop pos)
    discoverMatchesGo line rest e a (idx ++ [a])

/-- One line of the discovery pass: scan the anchors, then ingest the tabs of
the remainder `line.slice(pos)`. -/
def discoverLine (line : List Char) (absTabs : Nat) (idx : List Nat) :
    Nat × List Nat :=
  match discoverMatchesGo line (scanLine line) 0 absTabs idx with
  | (pos, a, idx2) => (a + countTabs (line.drop pos), idx2)

/-- The whole-file discovery scan: running tab count and anchor index list,
with CRs removed from each raw line first. -/
def discoverAll (lines : List (List Char)) : Nat × List Nat :=
  lines.foldl
    (fun acc raw => discoverLine (raw.filter (fun c => c != CR)) acc.1 acc.2)
    (0, [])

/-- Result record of `discoverCanonicalTabs`. -/
structure DiscoverResult where
  canonicalTabs : Nat
  histogram : List (Nat × Nat)
  records : Nat
  validAnchors : Nat
deriving DecidableEq, Repr

/-- `hist.set(delta, (hist.get(delta) || 0) + 1)` over an insertion-ordered
association list, mirroring `Map` iteration order. -/
def histAdd (h : List (Nat × Nat)) (d : Nat) : List (Nat × Nat) :=
  match h with
  | [] => [(d, 1)]
  | (k, v) :: t => if k = d then (k, v + 1) :: t else (k, v) :: histAdd t d

/-- Mode selection over the histogram: start from `canonicalTabs = 0`,
`modeFreq = -1`; replace on strictly larger frequency, or on equal frequency
with a larger delta. -/
def pickMode (h : List (Nat × Nat)) : Nat :=
  (h.foldl
    (fun acc kv =>
      if acc.2 < (kv.2 : Int) ∨ ((kv.2 : Int) = acc.2 ∧ acc.1 < kv.1) then
        (kv.1, (kv.2 : Int))
      else acc)
    ((0, -1) : Nat × Int)).1

/-- Deltas between consecutive recorded anchor positions. -/
def deltasOf (idx : List Nat) : List Nat :=
  List.zipWith (fun a b => a - b) idx.tail idx

/-- `discoverCanonicalTabs` from the source: fail with the format-unrecognized
error below two anchors, otherwise return the mode delta (failing if it is
zero) together with the histogram and anchor count. -/
def discoverCanonicalTabs (lines : List (List Char)) :
    Except String DiscoverResult :=
  match discoverAll lines with
  | (_, idx) =>
    if idx.length < 2 then
      .error "No valid triple anchors found - this may not be an Adobe Analytics file"
    else
      let hist := (deltasOf idx).foldl histAdd []
      let c := pickMode hist
      if c = 0 then .error "Failed to determine canonical tab count"
      else .ok ⟨c, hist, idx.length, idx.length⟩

/-- Discovery as the spec words it ("scan every physical line, tracking a
running absolute delimiter count across the whole file; each time the anchor
pattern matches, record the absolute delimiter count at the match position"):
identical to `discoverCanonicalTabs` except that the running count ingests
every delimiter of the file, including those inside anchor matches.  Used to
compare the source's behaviour against the spec's description. -/
def discoverAllSpec (lines : List (List Char)) : Nat × List Nat :=
  lines.foldl
    (fun acc raw =>
      let line := raw.filter (fun c => c != CR)
      let idx2 := (scanLine line).foldl
        (fun idx m => idx ++ [acc.1 + countTabs (line.take m.1)]) acc.2
      (acc.1 + countTabs line, idx2))
    (0, [])

/-- Canonical width per the spec's description of discovery (mode of deltas of
true absolute delimiter counts at anchor positions, same tie-break). -/
def discoverCanonicalTabsSpec (lines : List (List Char)) : Except String Nat :=
  match discoverAllSpec lines with
  | (_, idx) =>
    if idx.length < 2 then
      .error "No valid triple anchors found - this may not be an Adobe Analytics file"
    else
      let c := pickMode ((deltasOf idx).foldl histAdd [])
      if c = 0 then .error "Failed to determine canonical tab count"
      else .ok c

instance {ε α : Type} [DecidableEq ε] [DecidableEq α] :
    DecidableEq (Except ε α) := fun a b =>
  match a, b with
  | .error x, .error y =>
    match decEq x y with
    | isTrue h => isTrue (by rw [h])
    | isFalse h => isFalse (by intro k; cases k; exact h rfl)
  | .error _, .ok _ => isFalse (by intro k; cases k)
  | .ok _, .error _ => isFalse (by intro k; cases k)
  | .ok x, .ok y =>
    match decEq x y with
    | isTrue h => isTrue (by rw [h])
    | isFalse h => isFalse (by intro k; cases k; exact h rfl)

/-- Configuration surface of `preprocessFile`: optional canonical-width
override plus the reconstruction options of `DEFAULT_CONFIG`. -/
structure PConfig where
  canonicalTabs : Option Nat
  newlineReplacement : List Char
  paddingTolerance : Nat
deriving DecidableEq, Repr

/-- `preprocessFile` from the source, with the byte-stream plumbing replaced
by the line list: discovery runs only when no canonical width is supplied,
and a discovery error propagates before any reconstruction output exists. -/
def preprocessFile (cfg : PConfig) (lines : List (List Char)) :
    Except String RState :=
  match cfg.canonicalTabs with
  | some t => .ok (reconstruct ⟨t, cfg.newlineReplacement, cfg.paddingTolerance⟩ lines)
  | none =>
    match discoverCanonicalTabs lines with
    | .error e => .error e
    | .ok d =>
      .ok (reconstruct ⟨d.canonicalTabs, cfg.newlineReplacement, cfg.paddingTolerance⟩ lines)

/-!  Basic lemmas about `countTabs`, `splitTabs` and `joinTabs`. -/

theorem countTabs_nil : countTabs [] = 0 := rfl

theorem countTabs_append (a b : List Char) :
    countTabs (a ++ b) = countTabs a + countTabs b := by
  simp [countTabs, List.countP_append]

theorem countTabs_cons (c : Char) (ts : List Char) :
    countTabs (c :: ts) = countTabs ts + if c = TAB then 1 else 0 := by
  simp [countTabs, List.countP_cons]

theorem countTabs_replicate_of_ne {c : Char} (h : c ≠ TAB) (n : Nat) :
    countTabs (List.replicate n c) = 0 := by
  induction n with
  | zero => rfl
  | succ n ih => rw [List.replicate_succ, countTabs_cons, ih, if_neg h]

theorem countTabs_replicate_tab (n : Nat) :
    countTabs (List.replicate n TAB) = n := by
  induction n with
  | zero => rfl
  | succ n ih => rw [List.replicate_succ, countTabs_cons, ih, if_pos rfl]

theorem countTabs_eq_zero_of_nil {s : List Char} (h : s = []) : countTabs s = 0 := by
  rw [h]; rfl

theorem ne_nil_of_countTabs_pos {s : List Char} (h : 0 < countTabs s) : s ≠ [] := by
  intro e; rw [e] at h; exact absurd h (by decide)

theorem splitTabs_ne_nil (s : List Char) : splitTabs s ≠ [] := by
  induction s with
  | nil => simp [splitTabs]
  | cons c rest ih =>
    rw [splitTabs]
    by_cases h : c = TAB
    · simp [h]
    · rw [if_neg h]
      cases hs : splitTabs rest with
      | nil => simp
      | cons a t => simp

theorem length_splitTabs (s : List Char) :
    (splitTabs s).length = countTabs s + 1 := by
  induction s with
  | nil => rfl
  | cons c rest ih =>
    rw [splitTabs, countTabs_cons]
    by_cases h : c = TAB
    · rw [if_pos h, if_pos h, List.length_cons, ih]
    · rw [if_neg h, if_neg h]
      cases hs : splitTabs rest with
      | nil => exact absurd hs (splitTabs_ne_nil rest)
      | cons a t =>
        rw [hs] at ih
        simpa using ih

theorem countTabs_of_mem_splitTabs {s p : List Char} (h : p ∈ splitTabs s) :
    countTabs p = 0 := by
  induction s generalizing p with
  | nil =>
    simp only [splitTabs, List.mem_singleton] at h
    rw [h]; rfl
  | cons c rest ih =>
    rw [splitTabs] at h
    by_cases hc : c = TAB
    · rw [if_pos hc] at h
      rcases List.mem_cons.mp h with h | h
      · rw [h]; rfl
      · exact ih h
    · rw [if_neg hc] at h
      cases hs : splitTabs rest with
      | nil => exact absurd hs (splitTabs_ne_nil rest)
      | cons a t =>
        rw [hs] at h
        rcases List.mem_cons.mp h with h | h
        · have ha : a ∈ splitTabs rest := by rw [hs]; exact List.mem_cons_self a t
          rw [h, countTabs_cons, ih ha, if_neg hc]
        · exact ih (by rw [hs]; exact List.mem_cons_of_mem a h)

theorem countTabs_joinTabs (l : List (List Char))
    (h : ∀ p ∈ l, countTabs p = 0) :
    countTabs (joinTabs l) = l.length - 1 := by
  induction l with
  | nil => rfl
  | cons x ys ih =>
    cases ys with
    | nil =>
      simpa [joinTabs] using h x (List.mem_cons_self x [])
    | cons y t =>
      rw [joinTabs, countTabs_append, countTabs_cons]
      rw [h x (List.mem_cons_self x (y :: t))]
      rw [ih (fun p hp => h p (List.mem_cons_of_mem x hp))]
      simp [TAB]

/-!  Helper lemmas unfolding one step of `appendToCur` and `finalizeCur`
under explicit branch conditions. -/

theorem appendToCur_nil (cfg : Config) (st : RState) (c : Bool) :
    appendToCur cfg st [] c = st := by
  simp [appendToCur]

/-- The grown accumulator contents of one `appendToCur` call. -/
def grownCur (cfg : Config) (st : RState) (str : List Char)
    (consumePending : Bool) : List Char :=
  (if consumePending && st.pendingNL then st.cur ++ cfg.newlineReplacement
   else st.cur) ++ str

theorem appendToCur_flush (cfg : Config) (st : RState) (str : List Char)
    (c : Bool) (hne : str ≠ [])
    (htrig : MAX_CUR_LEN < (grownCur cfg st str c).length ∨
      cfg.canonicalTabs * MAX_TAB_MULTIPLIER < st.curTabs + countTabs str) :
    appendToCur cfg st str c =
      { st with cur := [], curTabs := 0, pendingNL := false,
                bad := st.bad + 1,
                rej := st.rej ++ [grownCur cfg st str c ++ [NL]] } := by
  rw [appendToCur, if_neg hne]
  by_cases hp : (c && st.pendingNL) = true
  · simp only [hp, if_pos, grownCur] at htrig ⊢
    rw [if_pos (by simpa using htrig)]
  · have hp' : (c && st.pendingNL) = false := by
      cases h : (c && st.pendingNL) with
      | false => rfl
      | true => exact absurd h hp
    simp only [hp', Bool.false_eq_true, if_false, grownCur] at htrig ⊢
    rw [if_pos (by simpa [hp'] using htrig)]

theorem appendToCur_no_flush (cfg : Config) (st : RState) (str : List Char)
    (c : Bool) (hne : str ≠ [])
    (hlen : (grownCur cfg st str c).length ≤ MAX_CUR_LEN)
    (htabs : st.curTabs + countTabs str ≤ cfg.canonicalTabs * MAX_TAB_MULTIPLIER) :
    appendToCur cfg st str c =
      { st with cur := grownCur cfg st str c,
                curTabs := st.curTabs + countTabs str,
                pendingNL := st.pendingNL && !c } := by
  rw [appendToCur, if_neg hne]
  by_cases hp : (c && st.pendingNL) = true
  · have hc : c = true := by
      cases c with
      | false => simp at hp
      | true => rfl
    have hpn : st.pendingNL = true := by
      cases h : st.pendingNL with
      | false => rw [hc, h] at hp; exact absurd hp (by decide)
      | true => rfl
    simp only [hp, if_pos, grownCur] at hlen ⊢
    rw [if_neg (by push_neg; exact ⟨by simpa using hlen, by simpa using htabs⟩)]
    simp [hpn, hc, grownCur]
  · have hp' : (c && st.pendingNL) = false := by
      cases h : (c && st.pendingNL) with
      | false => rfl
      | true => exact absurd h hp
    simp only [hp', Bool.false_eq_true, if_false, grownCur, hp'] at hlen ⊢
    rw [if_neg (by push_neg; exact ⟨by simpa using hlen, by simpa using htabs⟩)]
    have : (st.pendingNL && !c) = st.pendingNL := by
      cases c with
      | false => simp
      | true => simp_all
    simp [this]

theorem finalizeCur_nil (cfg : Config) (st : RState) (h : st.cur = []) :
    finalizeCur cfg st = st := by
  rw [finalizeCur, if_pos h]

theorem finalizeCur_exact (cfg : Config) (st : RState) (hcur : st.cur ≠ [])
    (h : st.curTabs = cfg.canonicalTabs) :
    finalizeCur cfg st =
      { st with records := st.records + 1, ok := st.ok + 1,
                out := st.out ++ [st.cur ++ [NL]], cur := [], curTabs := 0 } := by
  rw [finalizeCur, if_neg hcur]
  dsimp only
  split_ifs
  rfl

theorem finalizeCur_pad (cfg : Config) (st : RState) (hcur : st.cur ≠ [])
    (hlt : st.curTabs < cfg.canonicalTabs)
    (htol : cfg.canonicalTabs - st.curTabs ≤ cfg.paddingTolerance) :
    finalizeCur cfg st =
      { st with records := st.records + 1, ok := st.ok + 1,
                out := st.out ++
                  [st.cur ++ List.replicate (cfg.canonicalTabs - st.curTabs) TAB ++ [NL]],
                cur := [], curTabs := 0 } := by
  rw [finalizeCur, if_neg hcur]
  dsimp only
  have hsub : cfg.canonicalTabs + 1 - (st.curTabs + 1) = cfg.canonicalTabs - st.curTabs := by
    omega
  split_ifs with h1 h2 h3 h4
  · exact absurd h1 (by omega)
  · rw [hsub]
  · exact absurd h3.1 (by omega)
  · exact (h2 ⟨by omega, by omega⟩).elim
  · exact (h2 ⟨by omega, by omega⟩).elim

theorem finalizeCur_trunc (cfg : Config) (st : RState) (hcur : st.cur ≠ [])
    (hgt : cfg.canonicalTabs < st.curTabs)
    (htol : st.curTabs - cfg.canonicalTabs ≤ cfg.paddingTolerance) :
    finalizeCur cfg st =
      { st with records := st.records + 1, ok := st.ok + 1,
                out := st.out ++
                  [joinTabs ((splitTabs st.cur).take (cfg.canonicalTabs + 1)) ++ [NL]],
                cur := [], curTabs := 0 } := by
  rw [finalizeCur, if_neg hcur]
  dsimp only
  split_ifs with h1 h2 h3 h4
  · exact absurd h1 (by omega)
  · exact absurd h2.1 (by omega)
  · rfl
  · exact (h3 ⟨by omega, by omega⟩).elim
  · exact (h3 ⟨by omega, by omega⟩).elim

theorem finalizeCur_reject (cfg : Config) (st : RState) (hcur : st.cur ≠ [])
    (hne : st.curTabs ≠ cfg.canonicalTabs)
    (hpad : ¬(st.curTabs < cfg.canonicalTabs ∧
      cfg.canonicalTabs - st.curTabs ≤ cfg.paddingTolerance))
    (htr : ¬(cfg.canonicalTabs < st.curTabs ∧
      st.curTabs - cfg.canonicalTabs ≤ cfg.paddingTolerance)) :
    finalizeCur cfg st =
      { st with records := st.records + 1, bad := st.bad + 1,
                rej := st.rej ++ [st.cur ++ [NL]], cur := [], curTabs := 0 } := by
  rw [finalizeCur, if_neg hcur]
  dsimp only
  split_ifs with h1 h2 h3 h4
  · exact absurd h1 hne
  · exact (hpad ⟨by omega, by omega⟩).elim
  · exact (htr ⟨by omega, by omega⟩).elim
  · rfl
  · rfl

/-!  Clean-input run: every line is one whole record of exactly T tabs. -/

/-- The state between records after `k` clean records with accepted output
`os`: empty accumulator, no pending join, no rejects. -/
def cleanState (k : Nat) (os : List (List Char)) : RState :=
  ⟨[], 0, false, k, k, 0, os, []⟩

theorem processLine_clean (cfg : Config) (k : Nat) (os : List (List Char))
    (l : List Char) (hT : 0 < cfg.canonicalTabs)
    (h1 : countTabs l = cfg.canonicalTabs) (h2 : l.length ≤ MAX_CUR_LEN)
    (h3 : CR ∉ l) :
    processLine cfg (cleanState k os) l = cleanState (k + 1) (os ++ [l ++ [NL]]) := by
  have hfil : l.filter (fun c => c != CR) = l :=
    List.filter_eq_self.mpr fun a ha => by
      have hne : a ≠ CR := fun e => h3 (e ▸ ha)
      simpa using hne
  have hlne : l ≠ [] := ne_nil_of_countTabs_pos (h1 ▸ hT)
  rw [processLine]
  dsimp only
  rw [hfil]
  have hM : { cleanState k os with pendingNL := !(cleanState k os).cur.isEmpty } =
      cleanState k os := by
    simp [cleanState]
  rw [hM]
  have happ := appendToCur_no_flush cfg (cleanState k os) l true hlne
    (by simpa [grownCur, cleanState] using h2)
    (by
      have : cfg.canonicalTabs * 1 ≤ cfg.canonicalTabs * MAX_TAB_MULTIPLIER :=
        Nat.mul_le_mul_left cfg.canonicalTabs (by decide)
      simpa [cleanState, h1] using this)
  rw [happ]
  simp only [grownCur, cleanState]
  rw [if_pos (by simp [h1])]
  rw [finalizeCur_exact cfg _ (by simpa using hlne) (by simpa using h1)]
  simp [cleanState, h1]

theorem foldl_clean (cfg : Config) (hT : 0 < cfg.canonicalTabs) :
    ∀ (ls : List (List Char)) (k : Nat) (os : List (List Char)),
      (∀ l ∈ ls, countTabs l = cfg.canonicalTabs ∧ l.length ≤ MAX_CUR_LEN ∧ CR ∉ l) →
      ls.foldl (processLine cfg) (cleanState k os) =
        cleanState (k + ls.length) (os ++ ls.map (fun l => l ++ [NL]))
  | [], k, os, _ => by simp
  | l :: ls, k, os, h => by
    rw [List.foldl_cons]
    obtain ⟨hl1, hl2, hl3⟩ := h l (List.mem_cons_self l ls)
    rw [processLine_clean cfg k os l hT hl1 hl2 hl3]
    rw [foldl_clean cfg hT ls (k + 1) (os ++ [l ++ [NL]])
      (fun x hx => h x (List.mem_cons_of_mem l hx))]
    simp [Nat.add_comm, Nat.add_assoc, Nat.add_left_comm]

/-!  Width invariant: the tab counter tracks the accumulator exactly (when the
placeholder token contains no tabs), and every accepted record has exactly T
tabs. -/

/-- Invariant carried through a reconstruction run: the tab counter agrees
with the accumulator contents, and all accepted records have width T. -/
def InvWidth (cfg : Config) (st : RState) : Prop :=
  countTabs st.cur = st.curTabs ∧
  ∀ r ∈ st.out, countTabs r = cfg.canonicalTabs

theorem invWidth_append (cfg : Config) (st : RState) (str : List Char)
    (c : Bool) (hrepl : countTabs cfg.newlineReplacement = 0)
    (h : InvWidth cfg st) : InvWidth cfg (appendToCur cfg st str c) := by
  obtain ⟨hc, ho⟩ := h
  rw [appendToCur]
  by_cases hne : str = []
  · rw [if_pos hne]; exact ⟨hc, ho⟩
  · rw [if_neg hne]
    dsimp only
    set st1 := if c && st.pendingNL then
        { st with cur := st.cur ++ cfg.newlineReplacement, pendingNL := false }
      else st with hst1
    have hc1 : countTabs st1.cur = st1.curTabs := by
      rw [hst1]
      split_ifs
      · simpa [countTabs_append, hrepl] using hc
      · exact hc
    have ho1 : ∀ r ∈ st1.out, countTabs r = cfg.canonicalTabs := by
      rw [hst1]
      split_ifs
      · exact ho
      · exact ho
    split_ifs
    · exact ⟨rfl, ho1⟩
    · exact ⟨by simpa [countTabs_append] using congrArg (· + countTabs str) hc1, ho1⟩

theorem invWidth_finalize (cfg : Config) (st : RState)
    (h : InvWidth cfg st) : InvWidth cfg (finalizeCur cfg st) := by
  obtain ⟨hc, ho⟩ := h
  by_cases hnil : st.cur = []
  · rw [finalizeCur_nil cfg st hnil]; exact ⟨hc, ho⟩
  · rcases Nat.lt_trichotomy st.curTabs cfg.canonicalTabs with hlt | heq | hgt
    · by_cases htol : cfg.canonicalTabs - st.curTabs ≤ cfg.paddingTolerance
      · rw [finalizeCur_pad cfg st hnil hlt htol]
        refine ⟨rfl, fun r hr => ?_⟩
        rcases List.mem_append.mp hr with hr | hr
        · exact ho r hr
        · rw [List.mem_singleton.mp hr]
          simp only [countTabs_append, hc]
          rw [countTabs_replicate_tab]
          have : countTabs [NL] = 0 := rfl
          omega
      · rw [finalizeCur_reject cfg st hnil (by omega)
          (fun hcon => htol hcon.2) (fun hcon => absurd hcon.1 (by omega))]
        exact ⟨rfl, ho⟩
    · rw [finalizeCur_exact cfg st hnil heq]
      refine ⟨rfl, fun r hr => ?_⟩
      rcases List.mem_append.mp hr with hr | hr
      · exact ho r hr
      · rw [List.mem_singleton.mp hr]
        simp only [countTabs_append, hc, heq]
        have : countTabs [NL] = 0 := rfl
        omega
    · by_cases htol : st.curTabs - cfg.canonicalTabs ≤ cfg.paddingTolerance
      · rw [finalizeCur_trunc cfg st hnil hgt htol]
        refine ⟨rfl, fun r hr => ?_⟩
        rcases List.mem_append.mp hr with hr | hr
        · exact ho r hr
        · rw [List.mem_singleton.mp hr]
          have hlen : ((splitTabs st.cur).take (cfg.canonicalTabs + 1)).length =
              cfg.canonicalTabs + 1 := by
            rw [List.length_take, length_splitTabs, hc]
            omega
          have hpieces : ∀ p ∈ (splitTabs st.cur).take (cfg.canonicalTabs + 1),
              countTabs p = 0 := fun p hp =>
            countTabs_of_mem_splitTabs (List.take_subset _ _ hp)
          simp only [countTabs_append]
          rw [countTabs_joinTabs _ hpieces, hlen]
          have : countTabs [NL] = 0 := rfl
          omega
      · rw [finalizeCur_reject cfg st hnil (by omega)
          (fun hcon => absurd hcon.1 (by omega)) (fun hcon => htol hcon.2)]
        exact ⟨rfl, ho⟩

theorem invWidth_processLine (cfg : Config) (st : RState) (l : List Char)
    (hrepl : countTabs cfg.newlineReplacement = 0)
    (h : InvWidth cfg st) : InvWidth cfg (processLine cfg st l) := by
  rw [processLine]
  dsimp only
  have h1 : InvWidth cfg { st with pendingNL := !st.cur.isEmpty } :=
    ⟨h.1, h.2⟩
  have h2 := invWidth_append cfg _ (l.filter (fun c => c != CR)) true hrepl h1
  split_ifs
  · exact ⟨(invWidth_finalize cfg _ h2).1, (invWidth_finalize cfg _ h2).2⟩
  · exact h2

theorem invWidth_run (cfg : Config) (lines : List (List Char))
    (hrepl : countTabs cfg.newlineReplacement = 0) :
    InvWidth cfg (reconstruct cfg lines) := by
  have hfold : ∀ (ls : List (List Char)) (st : RState), InvWidth cfg st →
      InvWidth cfg (ls.foldl (processLine cfg) st) := by
    intro ls
    induction ls with
    | nil => intro st h; exact h
    | cons l t ih =>
      intro st h
      rw [List.foldl_cons]
      exact ih _ (invWidth_processLine cfg st l hrepl h)
  have h0 : InvWidth cfg initState := ⟨rfl, by simp [initState]⟩
  rw [reconstruct]
  split_ifs
  · exact hfold lines initState h0
  · exact invWidth_finalize cfg _ (hfold lines initState h0)

/-!  Concrete fixtures used by the claim theorems and witnesses. -/

/-- Default-config reconstruction with canonical width 5 (the width of the
spec's newline-splice example). -/
def cfgT5 : Config := ⟨5, defaultReplacement, 3⟩

/-- Default-config reconstruction with canonical width 1. -/
def cfgT1 : Config := ⟨1, defaultReplacement, 3⟩

/-- A one-line record with 5 tabs containing one triple anchor
(`10 digits TAB 11 digits TAB 11 digits`, tab on either side). -/
def anchorRow : List Char :=
  "a\t1111111111\t22222222222\t33333333333\tb\tc".data

/-- First physical line of the spec's newline-splice example. -/
def spliceLine1 : List Char := "alpha".data

/-- Second physical line of the spec's newline-splice example (4 tabs). -/
def spliceLine2 : List Char :=
  "beta\t1700000000\t1234567890123\t9876543210987\tgamma".data

/-- The two physical lines of the newline-splice example. -/
def spliceLines : List (List Char) := [spliceLine1, spliceLine2]

/-- The accepted record the claim expects for the splice example:
`alpha`, the placeholder, then the second line (4 tabs in total). -/
def claimRecord : List Char :=
  "alpha\\nbeta\t1700000000\t1234567890123\t9876543210987\tgamma".data

/-- A clean one-record line (1 tab) longer than the 64 MB accumulator
ceiling. -/
def bigLine : List Char := TAB :: List.replicate (MAX_CUR_LEN + 1) 'a'

/-- A clean one-record line (1 tab) containing an interior carriage return. -/
def crLine : List Char := "a\rb\tc".data

/-- Two clean one-tab records. -/
def cleanLinesW : List (List Char) := ["a\tb".data, "c\td".data]

/-- A single short line: 2 tabs where `cfgT5` expects 5. -/
def fragLines : List (List Char) := ["a\tb\tc".data]

/-- Witness state for the padding/truncation claim: an accumulator holding a
record with 4 tabs. -/
def stPadW : RState := { initState with cur := "a\tb\tc\td\te".data, curTabs := 4 }

/-- Witness state for the fragment claim: an accumulator holding a record
with 1 tab. -/
def stFragW : RState := { initState with cur := "x\ty".data, curTabs := 1 }

/-- What one `appendToCur` call does when a join is pending and the line is
non-empty: the placeholder is spliced exactly once before the new content and
the marker is cleared — whether or not the guardrail then force-flushes. -/
theorem pending_consume (cfg : Config) (st : RState) (line : List Char)
    (hline : line ≠ []) :
    (appendToCur cfg { st with pendingNL := true } line true).pendingNL = false ∧
    ((appendToCur cfg { st with pendingNL := true } line true).cur =
        st.cur ++ cfg.newlineReplacement ++ line ∨
      (appendToCur cfg { st with pendingNL := true } line true).rej =
        st.rej ++ [st.cur ++ cfg.newlineReplacement ++ line ++ [NL]]) := by
  by_cases htrig : MAX_CUR_LEN <
      (grownCur cfg { st with pendingNL := true } line true).length ∨
      cfg.canonicalTabs * MAX_TAB_MULTIPLIER <
        ({ st with pendingNL := true } : RState).curTabs + countTabs line
  · rw [appendToCur_flush cfg _ line true hline htrig]
    refine ⟨rfl, Or.inr ?_⟩
    simp [grownCur]
  · push_neg at htrig
    rw [appendToCur_no_flush cfg _ line true hline htrig.1 (by simpa using htrig.2)]
    refine ⟨by simp, Or.inl (by simp [grownCur])⟩

/-- Claim C1: the source's `appendToCur` guardrail path increments `bad` and
writes the record to the reject stream, but never increments `records`; on
this one-line input (10 tabs against T = 1, tripping the tab-multiplier
guardrail) the returned counters violate `records = ok + bad`. -/
theorem c1_guardrail_flush_uncounted :
    (reconstruct cfgT1 [List.replicate 10 TAB]).records = 0 ∧
    (reconstruct cfgT1 [List.replicate 10 TAB]).ok = 0 ∧
    (reconstruct cfgT1 [List.replicate 10 TAB]).bad = 1 ∧
    (reconstruct cfgT1 [List.replicate 10 TAB]).rej.length = 1 ∧
    (reconstruct cfgT1 [List.replicate 10 TAB]).records ≠
      (reconstruct cfgT1 [List.replicate 10 TAB]).ok +
        (reconstruct cfgT1 [List.replicate 10 TAB]).bad := by
  refine ⟨by decide, by decide, by decide, by decide, by decide⟩

/-- Evaluation of the reconstruction on the over-long clean line: the
guardrail force-flushes it to rejects. -/
theorem reconstruct_bigLine :
    reconstruct cfgT1 [bigLine] =
      { initState with bad := 1, rej := [bigLine ++ [NL]] } := by
  have hfil : bigLine.filter (fun c => c != CR) = bigLine :=
    List.filter_eq_self.mpr (by
      intro a ha
      have ha2 : a ∈ TAB :: List.replicate (MAX_CUR_LEN + 1) 'a' := ha
      rcases List.mem_cons.mp ha2 with h | h
      · rw [h]; decide
      · rw [List.eq_of_mem_replicate h]; decide)
  have hM : ({ initState with pendingNL := !initState.cur.isEmpty } : RState) =
      initState := rfl
  have hgrown : grownCur cfgT1 initState bigLine true = bigLine := by
    simp [grownCur, initState]
  have hflush := appendToCur_flush cfgT1 initState bigLine true
    (show TAB :: List.replicate (MAX_CUR_LEN + 1) 'a' ≠ [] from
      List.cons_ne_nil _ _)
    (Or.inl (by
      rw [hgrown]
      show MAX_CUR_LEN < (TAB :: List.replicate (MAX_CUR_LEN + 1) 'a').length
      rw [List.length_cons, List.length_replicate]
      omega))
  have hpl : processLine cfgT1 initState bigLine =
      { initState with bad := 1, rej := [bigLine ++ [NL]] } := by
    rw [processLine]
    dsimp only
    rw [hfil, hM, hflush, hgrown]
    rw [if_neg (by decide)]
    rfl
  rw [reconstruct, List.foldl_cons, List.foldl_nil, hpl]
  rfl

/-- Claim C2 counterexample: two clean one-line records with exactly T
delimiters that the engine does not reproduce — a record longer than the
64 MB accumulator ceiling is force-rejected instead of accepted, and a record
containing an interior carriage return is emitted with the CR stripped, so
the accepted output is not byte-identical to the input. -/
theorem c2_clean_input_counterexample :
    (countTabs bigLine = cfgT1.canonicalTabs ∧
      (reconstruct cfgT1 [bigLine]).ok = 0 ∧
      (reconstruct cfgT1 [bigLine]).bad = 1) ∧
    (countTabs crLine = cfgT1.canonicalTabs ∧
      (reconstruct cfgT1 [crLine]).ok = 1 ∧
      (reconstruct cfgT1 [crLine]).out ≠ [crLine ++ [NL]]) := by
  refine ⟨⟨?_, ?_, ?_⟩, by decide, by decide, by decide⟩
  · show countTabs (TAB :: List.replicate (MAX_CUR_LEN + 1) 'a') =
      cfgT1.canonicalTabs
    rw [countTabs_cons, countTabs_replicate_of_ne (by decide)]
    rfl
  · rw [reconstruct_bigLine]
    rfl
  · rw [reconstruct_bigLine]

/-- Claim C2 (amended): on clean input whose lines additionally fit under the
64 MB guardrail and contain no carriage returns, every record is accepted
unchanged and in order, nothing is rejected, and the accepted byte stream
equals the input byte stream. -/
theorem c2_clean_input_idempotent (cfg : Config) (lines : List (List Char))
    (hT : 0 < cfg.canonicalTabs)
    (h : ∀ l ∈ lines, countTabs l = cfg.canonicalTabs ∧
      l.length ≤ MAX_CUR_LEN ∧ CR ∉ l) :
    reconstruct cfg lines =
      { initState with records := lines.length, ok := lines.length,
                       out := lines.map (fun l => l ++ [NL]) } ∧
    (reconstruct cfg lines).out.flatten = (lines.map (fun l => l ++ [NL])).flatten := by
  have hrun : lines.foldl (processLine cfg) initState =
      cleanState lines.length (lines.map (fun l => l ++ [NL])) := by
    have hf := foldl_clean cfg hT lines 0 [] h
    simpa [cleanState] using hf
  have hmain : reconstruct cfg lines =
      { initState with records := lines.length, ok := lines.length,
                       out := lines.map (fun l => l ++ [NL]) } := by
    rw [reconstruct]
    rw [hrun]
    rw [if_pos (show (cleanState lines.length
      (lines.map (fun l => l ++ [NL]))).cur = [] from rfl)]
    rfl
  exact ⟨hmain, by rw [hmain]⟩

/-- Witness for the amended C2 theorem at a concrete two-record input. -/
theorem c2_clean_input_idempotent_witness :
    reconstruct cfgT1 cleanLinesW =
      { initState with records := cleanLinesW.length, ok := cleanLinesW.length,
                       out := cleanLinesW.map (fun l => l ++ [NL]) } :=
  (c2_clean_input_idempotent cfgT1 cleanLinesW (by decide) (by decide)).1

/-- Claim C3: every record written to the accepted output stream carries
exactly T delimiters, for any run whose placeholder token is delimiter-free
(as the shipped default `"\\n"` is). -/
theorem c3_accepted_width_exact (cfg : Config) (lines : List (List Char))
    (r : List Char) (hrepl : countTabs cfg.newlineReplacement = 0)
    (hr : r ∈ (reconstruct cfg lines).out) :
    countTabs r = cfg.canonicalTabs :=
  (invWidth_run cfg lines hrepl).2 r hr

/-- Witness for C3 at a concrete one-record run. -/
theorem c3_accepted_width_exact_witness :
    countTabs cfgT1.newlineReplacement = 0 ∧
    "a\tb\n".data ∈ (reconstruct cfgT1 ["a\tb".data]).out ∧
    countTabs "a\tb\n".data = cfgT1.canonicalTabs :=
  ⟨by decide, by decide,
    c3_accepted_width_exact cfgT1 ["a\tb".data] _ (by decide) (by decide)⟩

/-- Claim C4: on a file of two identical records with 5 delimiters each, the
true absolute-delimiter deltas between anchor positions are 5 (as the
spec-worded discovery computes), but the source's discovery skips the
delimiters inside each anchor match when updating its running count and
returns canonical width 2. -/
theorem c4_discovery_undercounts :
    (discoverCanonicalTabs [anchorRow, anchorRow]).map
      DiscoverResult.canonicalTabs = .ok 2 ∧
    discoverCanonicalTabsSpec [anchorRow, anchorRow] = .ok 5 ∧
    countTabs anchorRow = 5 := by
  refine ⟨by decide, by decide, by decide⟩

/-- Claim C5 counterexample: on the spec's newline-splice example the
reassembled record has only 4 delimiters, so finalization pads it — the
emitted record is not the claimed string (it carries one extra trailing
delimiter), although the accepted/rejected counts are 1 and 0. -/
theorem c5_newline_splice_counterexample :
    (reconstruct cfgT5 spliceLines).out ≠ [claimRecord ++ [NL]] ∧
    (reconstruct cfgT5 spliceLines).ok = 1 ∧
    (reconstruct cfgT5 spliceLines).bad = 0 := by
  refine ⟨by decide, by decide, by decide⟩

/-- Claim C5 (amended): the splice example yields exactly one accepted record
equal to `alpha`, the placeholder, the second line, and one padding
delimiter appended by the tolerance repair; accepted count 1, rejected 0. -/
theorem c5_newline_splice_padded :
    reconstruct cfgT5 spliceLines =
      { initState with records := 1, ok := 1,
                       out := [claimRecord ++ [TAB, NL]] } := by
  decide

/-- Claim C6: with fewer than two recorded anchors, discovery fails with the
format-unrecognized error, and `preprocessFile` (without a canonical-width
override) propagates that error so no output streams are produced. -/
theorem c6_discovery_fails_below_two_anchors (lines : List (List Char))
    (pcfg : PConfig) (hover : pcfg.canonicalTabs = none)
    (h : (discoverAll lines).2.length < 2) :
    discoverCanonicalTabs lines =
      .error "No valid triple anchors found - this may not be an Adobe Analytics file" ∧
    preprocessFile pcfg lines =
      .error "No valid triple anchors found - this may not be an Adobe Analytics file" := by
  have herr : discoverCanonicalTabs lines =
      .error "No valid triple anchors found - this may not be an Adobe Analytics file" := by
    rw [discoverCanonicalTabs]
    rcases hda : discoverAll lines with ⟨a, idx⟩
    rw [hda] at h
    dsimp only
    rw [if_pos (by simpa using h)]
  refine ⟨herr, ?_⟩
  rw [preprocessFile, hover, herr]

/-- Witness for C6 at a concrete anchor-free file. -/
theorem c6_discovery_fails_below_two_anchors_witness :
    (discoverAll [['h', 'i']]).2.length < 2 ∧
    preprocessFile ⟨none, defaultReplacement, 3⟩ [['h', 'i']] =
      .error "No valid triple anchors found - this may not be an Adobe Analytics file" :=
  ⟨by decide,
    (c6_discovery_fails_below_two_anchors [['h', 'i']]
      ⟨none, defaultReplacement, 3⟩ rfl (by decide)).2⟩

/-- Claim C7: at finalization, a record short of T by a column count within
the padding tolerance is padded with trailing delimiters to exactly T and
accepted, and a record over T within the tolerance is truncated by splitting
on the delimiter, keeping exactly the T+1 leading fields, rejoining, and
accepted. -/
theorem c7_pad_and_truncate (cfg : Config) (st : RState)
    (hcur : st.cur ≠ []) (hct : countTabs st.cur = st.curTabs) :
    (st.curTabs < cfg.canonicalTabs →
      cfg.canonicalTabs - st.curTabs ≤ cfg.paddingTolerance →
      finalizeCur cfg st =
        { st with records := st.records + 1, ok := st.ok + 1,
                  out := st.out ++
                    [st.cur ++ List.replicate (cfg.canonicalTabs - st.curTabs) TAB ++ [NL]],
                  cur := [], curTabs := 0 } ∧
      countTabs (st.cur ++ List.replicate (cfg.canonicalTabs - st.curTabs) TAB) =
        cfg.canonicalTabs) ∧
    (cfg.canonicalTabs < st.curTabs →
      st.curTabs - cfg.canonicalTabs ≤ cfg.paddingTolerance →
      finalizeCur cfg st =
        { st with records := st.records + 1, ok := st.ok + 1,
                  out := st.out ++
                    [joinTabs ((splitTabs st.cur).take (cfg.canonicalTabs + 1)) ++ [NL]],
                  cur := [], curTabs := 0 } ∧
      ((splitTabs st.cur).take (cfg.canonicalTabs + 1)).length =
        cfg.canonicalTabs + 1) := by
  constructor
  · intro hlt htol
    refine ⟨finalizeCur_pad cfg st hcur hlt htol, ?_⟩
    rw [countTabs_append, hct, countTabs_replicate_tab]
    omega
  · intro hgt htol
    refine ⟨finalizeCur_trunc cfg st hcur hgt htol, ?_⟩
    rw [List.length_take, length_splitTabs, hct]
    omega

/-- Witness for C7: a 4-tab accumulator against T = 5 (padding side holds;
the truncation side holds vacuously at this input). -/
theorem c7_pad_and_truncate_witness :
    countTabs stPadW.cur = stPadW.curTabs ∧
    ((stPadW.curTabs < cfgT5.canonicalTabs →
      cfgT5.canonicalTabs - stPadW.curTabs ≤ cfgT5.paddingTolerance →
      finalizeCur cfgT5 stPadW =
        { stPadW with records := stPadW.records + 1, ok := stPadW.ok + 1,
                      out := stPadW.out ++
                        [stPadW.cur ++ List.replicate (cfgT5.canonicalTabs - stPadW.curTabs) TAB ++ [NL]],
                      cur := [], curTabs := 0 } ∧
      countTabs (stPadW.cur ++ List.replicate (cfgT5.canonicalTabs - stPadW.curTabs) TAB) =
        cfgT5.canonicalTabs) ∧
    (cfgT5.canonicalTabs < stPadW.curTabs →
      stPadW.curTabs - cfgT5.canonicalTabs ≤ cfgT5.paddingTolerance →
      finalizeCur cfgT5 stPadW =
        { stPadW with records := stPadW.records + 1, ok := stPadW.ok + 1,
                      out := stPadW.out ++
                        [joinTabs ((splitTabs stPadW.cur).take (cfgT5.canonicalTabs + 1)) ++ [NL]],
                      cur := [], curTabs := 0 } ∧
      ((splitTabs stPadW.cur).take (cfgT5.canonicalTabs + 1)).length =
        cfgT5.canonicalTabs + 1)) :=
  ⟨by decide, c7_pad_and_truncate cfgT5 stPadW (by decide) (by decide)⟩

/-- Claim C8 counterexample: a record with 2 delimiters where T = 5 is below
the 60% fragment threshold (and the absolute floor of 10), yet the engine
pads and accepts it because the padding-tolerance branch runs first — it is
not routed to rejects as the claim states. -/
theorem c8_fragment_counterexample :
    looksLikeFragment cfgT5 (countTabs "a\tb\tc".data) = true ∧
    (reconstruct cfgT5 fragLines).bad = 0 ∧
    (reconstruct cfgT5 fragLines).rej = [] ∧
    (reconstruct cfgT5 fragLines).ok = 1 := by
  refine ⟨by decide, by decide, by decide, by decide⟩

/-- Claim C8 (amended): a fragment record — delimiter count below the
absolute floor or the 60% threshold — that is also short of T by more than
the padding tolerance is routed to the reject stream unmodified, alone, and
the accumulator is reset, so it is never merged with a neighboring record. -/
theorem c8_fragment_rejected (cfg : Config) (st : RState)
    (hcur : st.cur ≠ []) (hlt : st.curTabs < cfg.canonicalTabs)
    (htol : cfg.paddingTolerance < cfg.canonicalTabs - st.curTabs)
    (_hfrag : looksLikeFragment cfg st.curTabs = true) :
    finalizeCur cfg st =
      { st with records := st.records + 1, bad := st.bad + 1,
                rej := st.rej ++ [st.cur ++ [NL]], cur := [], curTabs := 0 } :=
  finalizeCur_reject cfg st hcur (by omega)
    (fun hcon => by omega) (fun hcon => by omega)

/-- Witness for the amended C8 theorem: the spec's example of 1 delimiter
against T = 5. -/
theorem c8_fragment_rejected_witness :
    stFragW.curTabs < cfgT5.canonicalTabs ∧
    cfgT5.paddingTolerance < cfgT5.canonicalTabs - stFragW.curTabs ∧
    looksLikeFragment cfgT5 stFragW.curTabs = true ∧
    finalizeCur cfgT5 stFragW =
      { stFragW with records := stFragW.records + 1, bad := stFragW.bad + 1,
                     rej := stFragW.rej ++ [stFragW.cur ++ [NL]],
                     cur := [], curTabs := 0 } :=
  ⟨by decide, by decide, by decide,
    c8_fragment_rejected cfgT5 stFragW (by decide) (by decide) (by decide)
      (by decide)⟩

/-- Claim C9: whenever appending a physical line pushes the accumulator past
the 64 MB byte ceiling or past 8 times T delimiters, `appendToCur`
immediately force-finalizes the accumulator as one rejected record and
resets it (empty buffer, zero count, cleared marker), keeping accumulation
bounded even when the natural boundary never arrives. -/
theorem c9_guardrail_force_finalize (cfg : Config) (st : RState)
    (str : List Char) (consumePending : Bool) (hne : str ≠ [])
    (htrig : MAX_CUR_LEN < (grownCur cfg st str consumePending).length ∨
      cfg.canonicalTabs * MAX_TAB_MULTIPLIER < st.curTabs + countTabs str) :
    appendToCur cfg st str consumePending =
      { st with cur := [], curTabs := 0, pendingNL := false,
                bad := st.bad + 1,
                rej := st.rej ++ [grownCur cfg st str consumePending ++ [NL]] } :=
  appendToCur_flush cfg st str consumePending hne htrig

/-- Witness for C9: 9 tabs against T = 1 trips the tab-multiplier guardrail. -/
theorem c9_guardrail_force_finalize_witness :
    (List.replicate 9 TAB ≠ ([] : List Char)) ∧
    cfgT1.canonicalTabs * MAX_TAB_MULTIPLIER <
      initState.curTabs + countTabs (List.replicate 9 TAB) ∧
    appendToCur cfgT1 initState (List.replicate 9 TAB) true =
      { initState with cur := [], curTabs := 0, pendingNL := false,
                       bad := initState.bad + 1,
                       rej := initState.rej ++
                         [grownCur cfgT1 initState (List.replicate 9 TAB) true ++ [NL]] } :=
  ⟨by decide, by decide,
    c9_guardrail_force_finalize cfgT1 initState (List.replicate 9 TAB) true
      (by decide) (Or.inr (by decide))⟩

/-- Claim C10: a physical line beginning while the accumulator is non-empty
sets the pending-join marker, and appending that line's (non-empty) content
splices the placeholder exactly once before it and clears the marker — the
accumulator becomes the old content, the placeholder, then the line, unless
the guardrail force-flushes exactly that assembled record. -/
theorem c10_pending_join_once (cfg : Config) (st : RState)
    (rawLine : List Char) (hcur : st.cur ≠ [])
    (hline : rawLine.filter (fun c => c != CR) ≠ []) :
    processLine cfg st rawLine =
      (if cfg.canonicalTabs ≤
          (appendToCur cfg { st with pendingNL := true }
            (rawLine.filter (fun c => c != CR)) true).curTabs then
        { finalizeCur cfg (appendToCur cfg { st with pendingNL := true }
            (rawLine.filter (fun c => c != CR)) true) with pendingNL := false }
      else
        appendToCur cfg { st with pendingNL := true }
          (rawLine.filter (fun c => c != CR)) true) ∧
    (appendToCur cfg { st with pendingNL := true }
      (rawLine.filter (fun c => c != CR)) true).pendingNL = false ∧
    ((appendToCur cfg { st with pendingNL := true }
        (rawLine.filter (fun c => c != CR)) true).cur =
      st.cur ++ cfg.newlineReplacement ++ rawLine.filter (fun c => c != CR) ∨
     (appendToCur cfg { st with pendingNL := true }
        (rawLine.filter (fun c => c != CR)) true).rej =
      st.rej ++ [st.cur ++ cfg.newlineReplacement ++
        rawLine.filter (fun c => c != CR) ++ [NL]]) := by
  have hie : st.cur.isEmpty = false := by
    cases hc : st.cur with
    | nil => exact absurd hc hcur
    | cons a t => rfl
  have hM : ({ st with pendingNL := !st.cur.isEmpty } : RState) =
      { st with pendingNL := true } := by
    rw [hie]
    rfl
  refine ⟨?_, pending_consume cfg st _ hline⟩
  rw [processLine]
  dsimp only
  rw [hM]

/-- Witness for C10: appending `beta` while `alpha` is in the accumulator. -/
theorem c10_pending_join_once_witness :
    ({ initState with cur := "alpha".data } : RState).cur ≠ [] ∧
    ("beta".data).filter (fun c => c != CR) ≠ [] ∧
    ((appendToCur cfgT5
        { { initState with cur := "alpha".data } with pendingNL := true }
        (("beta".data).filter (fun c => c != CR)) true).cur =
      ({ initState with cur := "alpha".data } : RState).cur ++
        cfgT5.newlineReplacement ++ ("beta".data).filter (fun c => c != CR) ∨
     (appendToCur cfgT5
        { { initState with cur := "alpha".data } with pendingNL := true }
        (("beta".data).filter (fun c => c != CR)) true).rej =
      ({ initState with cur := "alpha".data } : RState).rej ++
        [({ initState with cur := "alpha".data } : RState).cur ++
          cfgT5.newlineReplacement ++ ("beta".data).filter (fun c => c != CR) ++ [NL]]) :=
  ⟨by decide, by decide,
    (c10_pending_join_once cfgT5 { initState with cur := "alpha".data }
      "beta".data (by decide) (by decide)).2.2⟩

end Preprocess
